import Mathlib

/-!
Verification of the portfolio-tracker repository (src/notion.py, src/app.py,
src/tests/test_notion_API.py) against its natural-language specification.

The Python source is shallowly embedded: pandas DataFrames become lists of
records, float cells become `Option ℚ` (`none` = NaN / absent), raising
becomes `Except`, and the two external market-data providers are an oracle
function (their merged post-fetch adjusted-close series), since they are a
network boundary.  Monetary floats are modelled as exact rationals; every
arithmetic fact proved below is float-exact at the inputs considered (only
`+`, `-`, `*`, `abs` on equal or zero operands, and `x/x`).
-/

-- Allow `decide` to evaluate concrete rational arithmetic: Batteries marks
-- the `Rat` field operations `@[irreducible]`, which only hides them from
-- the elaborator; the kernel reduces them either way.
attribute [local semireducible] Rat.add Rat.mul Rat.sub Rat.inv

deriving instance DecidableEq for Except

/-! ## 1. Remote ledger client (src/notion.py lines 10-99)

`retrieve_db` and `query_db` build a fixed URL and headers, perform one
blocking request, and dispatch purely on the response status code.  The
single HTTP exchange is the boundary: each function is modelled as a pure
function of the one response it receives (there is no retry loop or partial
handling in the source, so the model is single-shot by construction). -/

def NOTION_URL : String := "https://api.notion.com/v1/databases/"

def NOTION_VERSION : String := "2021-08-16"

def DATABASE_ID : String := "aa1f83615ff945239302887264317370"

/-- The part of a `requests` response the code consults: the status code and
the parsed JSON body (left polymorphic; the code never inspects it). -/
structure HttpResponse (α : Type) where
  status_code : Nat
  json : α
deriving DecidableEq

/-- The request line and headers built by both client methods
(lines 61-62 and 93-94). -/
def requestHeader (token version : String) : List (String × String) :=
  [("Authorization", token), ("Notion-Version", version)]

/-- `NotionAPI.retrieve_db` (lines 37-67): GET `{base}{id}`; on status 200
return the JSON body, otherwise raise `ConnectionError`. -/
def retrieve_db {α : Type} (response : HttpResponse α) : Except String α :=
  if response.status_code = 200 then .ok response.json
  else .error ("Response status: " ++ toString response.status_code)

/-- `NotionAPI.query_db` (lines 69-99): POST `{base}{id}/query`; the same
status dispatch as `retrieve_db`. -/
def query_db {α : Type} (response : HttpResponse α) : Except String α :=
  if response.status_code = 200 then .ok response.json
  else .error ("Response status: " ++ toString response.status_code)

/-! ## 2. Rich-text unwrap (src/notion.py lines 101-137) -/

/-- One element of a Notion `rich_text` list; the code reads only its
`plain_text` key (line 135). -/
structure TextRun where
  plain_text : String
deriving DecidableEq

/-- `NotionAPI._extract_plain_text` (lines 132-137): empty list → `None`,
one run → its plain text, otherwise `ValueError`. -/
def extract_plain_text (rich_text_object : List TextRun) :
    Except String (Option String) :=
  match rich_text_object with
  | [] => .ok none
  | [r] => .ok (some r.plain_text)
  | _ => .error "More than 1 element in list!"

/-! ## 3. Dates and timestamps

`datetime.strptime(s, "%Y-%m-%d").date()` (line 188) yields a plain
`datetime.date`, which carries no timezone at all;
`pd.to_datetime(df["Fecha"], format="%Y-%m-%d")` (line 204) without
`utc=True` yields tz-naive timestamps (`.dt.tz` is `None`).  The model
keeps the timezone metadata explicit so the test suite's UTC assertion can
be checked. -/

/-- A `datetime.date`: calendar fields only, no timezone field exists. -/
structure NaiveDate where
  year : Nat
  month : Nat
  day : Nat
deriving DecidableEq

/-- A `pandas` timestamp as the code observes it: the date and the timezone
metadata `.dt.tz` (`none` = tz-naive). -/
structure PdTimestamp where
  date : NaiveDate
  tz : Option String
deriving DecidableEq

/-- `pd.to_datetime` as called on line 204: no `utc=True` flag is passed, so
the resulting timestamps are tz-naive. -/
def pd_to_datetime (d : NaiveDate) : PdTimestamp :=
  { date := d, tz := none }

/-- Split a character list on a separator (the list-level equivalent of
`str.split("-")`; implemented structurally so concrete inputs evaluate). -/
def splitOnChar (sep : Char) : List Char → List (List Char)
  | [] => [[]]
  | c :: rest =>
    if c = sep then [] :: splitOnChar sep rest
    else
      match splitOnChar sep rest with
      | [] => [[c]]
      | h :: t => (c :: h) :: t

/-- Read a non-empty all-digit field as a number (what `strptime` accepts
for `%Y`, `%m`, `%d`); anything else fails. -/
def parseNatField (cs : List Char) : Option Nat :=
  if cs = [] then none
  else
    cs.foldl (fun acc c =>
      match acc with
      | none => none
      | some n => if c.isDigit then some (n * 10 + (c.toNat - 48)) else none)
      (some 0)

/-- `datetime.strptime(s, "%Y-%m-%d")` followed by `.date()`: parse the three
dash-separated decimal fields; a string not of that shape raises. -/
def strptime_date (s : String) : Option NaiveDate :=
  match splitOnChar '-' s.toList with
  | [y, m, d] =>
    match parseNatField y, parseNatField m, parseNatField d with
    | some a, some b, some c => some ⟨a, b, c⟩
    | _, _, _ => none
  | _ => none

/-- Day count of a civil date from year 0 (days-from-civil algorithm, epoch
offset dropped: only order and day-differences matter).  Consecutive valid
dates map to consecutive numbers, so `pd.date_range`'s daily calendar is a
range of these ordinals. -/
def dateOrdinal (dt : NaiveDate) : Nat :=
  let y := if dt.month ≤ 2 then dt.year - 1 else dt.year
  let era := y / 400
  let yoe := y % 400
  let mp := if 2 < dt.month then dt.month - 3 else dt.month + 9
  let doy := (153 * mp + 2) / 5 + dt.day - 1
  let doe := yoe * 365 + yoe / 4 - yoe / 100 + doy
  era * 146097 + doe

/-! ## 4. Transaction normalizer, parse stage (src/notion.py lines 139-199)

Each raw row is a mapping from column name to a typed value envelope; the
code dispatches on a hardcoded list of column names and silently ignores
any other column. -/

/-- The value envelopes consumed from the query payload (spec §6): a text-run
list, a tagged optional number, a tagged single choice, a tagged date. -/
inductive PropValue where
  | rich_text (runs : List TextRun)
  | number (n : Option ℚ)
  | select (name : String)
  | date (start : String)
deriving DecidableEq

/-- One entry of the query result's `properties` object. -/
abbrev RawEntry := List (String × PropValue)

/-- One typed transaction record as built by the per-entry loop
(lines 156-197), before the table-level steps. -/
structure ParsedRow where
  fecha : NaiveDate
  tipo : String
  producto : Option String := none
  isin : Option String := none
  bolsa : Option String := none
  centroEjecucion : Option String := none
  simbolo : Option String := none
  descripcion : Option String := none
  unidades : Option ℚ := none
  valor : Option ℚ := none
  tasa : Option ℚ := none
deriving DecidableEq

/-- The record dict while the column loop runs: every field still optional. -/
structure PartialRecord where
  fecha : Option NaiveDate := none
  tipo : Option String := none
  producto : Option String := none
  isin : Option String := none
  bolsa : Option String := none
  centroEjecucion : Option String := none
  simbolo : Option String := none
  descripcion : Option String := none
  unidades : Option ℚ := none
  valor : Option ℚ := none
  tasa : Option ℚ := none

/-- The hardcoded rich-text column list of line 183. -/
def richTextCols : List String :=
  ["Producto", "ISIN", "Bolsa", "Centro ejecución", "Símbolo", "Descripción"]

def setTextCol (rec : PartialRecord) (col : String) (t : Option String) :
    PartialRecord :=
  if col = "Producto" then { rec with producto := t }
  else if col = "ISIN" then { rec with isin := t }
  else if col = "Bolsa" then { rec with bolsa := t }
  else if col = "Centro ejecución" then { rec with centroEjecucion := t }
  else if col = "Símbolo" then { rec with simbolo := t }
  else { rec with descripcion := t }

def setNumberCol (rec : PartialRecord) (col : String) (n : Option ℚ) :
    PartialRecord :=
  if col = "Unidades" then { rec with unidades := n }
  else if col = "Valor" then { rec with valor := n }
  else { rec with tasa := n }

/-- One iteration of the column loop (lines 158-195): dispatch on the column
name, unwrap the expected envelope (a mismatched envelope raises, as the
Python key lookup would), ignore unrecognized columns. -/
def applyProp (rec : PartialRecord) (cv : String × PropValue) :
    Except String PartialRecord :=
  let col := cv.1
  if col ∈ richTextCols then
    match cv.2 with
    | .rich_text runs => do
      let t ← extract_plain_text runs
      pure (setTextCol rec col t)
    | _ => .error ("KeyError: rich_text in " ++ col)
  else if col = "Fecha" then
    match cv.2 with
    | .date start =>
      match strptime_date start with
      | some d => pure { rec with fecha := some d }
      | none => .error "ValueError: strptime"
    | _ => .error "KeyError: date in Fecha"
  else if col = "Tipo" then
    match cv.2 with
    | .select name => pure { rec with tipo := some name }
    | _ => .error "KeyError: select in Tipo"
  else if col = "Unidades" ∨ col = "Valor" ∨ col = "Tasa" then
    match cv.2 with
    | .number n => pure (setNumberCol rec col n)
    | _ => .error ("KeyError: number in " ++ col)
  else
    pure rec

/-- Build one `ParsedRow` from a raw entry (the inner loop of lines 156-197).
A row without a `Fecha` or `Tipo` column is out of the modelled scope (the
later table steps assume both columns exist) and is rejected here. -/
def parseEntry (entry : RawEntry) : Except String ParsedRow := do
  let rec ← entry.foldlM applyProp {}
  match rec.fecha, rec.tipo with
  | some f, some tp =>
    pure { fecha := f, tipo := tp, producto := rec.producto, isin := rec.isin,
           bolsa := rec.bolsa, centroEjecucion := rec.centroEjecucion,
           simbolo := rec.simbolo, descripcion := rec.descripcion,
           unidades := rec.unidades, valor := rec.valor, tasa := rec.tasa }
  | _, _ => .error "missing Fecha or Tipo column"

/-! ## 5. Transaction normalizer, table stage (src/notion.py lines 199-231)

`df = df.sort_values("Fecha")` orders the rows ascending by date (the order
of rows sharing a date is unspecified by pandas' default sort; nothing
proved below depends on it).  Each cumulative column is
`abs(selected.cumsum().reindex(df.index).fillna(method="ffill").fillna(0.0))`:
a signed running total updated only at the selected rows (pandas `cumsum`
skips NaN cells), carried forward over the other rows, starting at 0, with
`abs` applied to the displayed value. -/

/-- Python `abs` / pandas `.abs()` on an exact rational. -/
def absQ (x : ℚ) : ℚ := if x < 0 then -x else x

/-- One step of a NaN-skipping running total: a present cell adds to the
accumulator, an absent cell leaves it (its displayed value is then the
forward-filled previous total, or the final `fillna(0.0)` at the start). -/
def updAcc (acc : ℚ) : Option ℚ → ℚ
  | some v => acc + v
  | none => acc

/-- The displayed values of
`selected.cumsum().reindex(df.index).fillna(method="ffill").fillna(0.0)`
(before the outer `abs`), starting from accumulator `acc` (0 at the top of
the table). -/
def cumsumFfill (acc : ℚ) : List (Option ℚ) → List ℚ
  | [] => []
  | c :: t => updAcc acc c :: cumsumFfill (updAcc acc c) t

/-- The `"Valor"` cell selected for `df["Tipo"] == "Ingreso"` rows
(line 207); `none` on every other row (those cells are NaN after the
`reindex`). -/
def ingresoInc (r : ParsedRow) : Option ℚ :=
  if r.tipo = "Ingreso" then r.valor else none

/-- Line 209: `"Valor"` of `"Retirada"` rows. -/
def retiradaInc (r : ParsedRow) : Option ℚ :=
  if r.tipo = "Retirada" then r.valor else none

/-- Line 211: `df["Total"] = abs(df["Unidades"] * df["Valor"])`; NaN when
either factor is absent. -/
def totalCell (r : ParsedRow) : Option ℚ :=
  match r.unidades, r.valor with
  | some u, some v => some (absQ (u * v))
  | _, _ => none

/-- Line 212: `"Total"` of `"Compra"` rows. -/
def compraInc (r : ParsedRow) : Option ℚ :=
  if r.tipo = "Compra" then totalCell r else none

/-- Line 214: `"Total"` of `"Venta"` rows. -/
def ventaInc (r : ParsedRow) : Option ℚ :=
  if r.tipo = "Venta" then totalCell r else none

/-- Line 216: `"Valor"` of `"Dividendo"` rows. -/
def dividendoInc (r : ParsedRow) : Option ℚ :=
  if r.tipo = "Dividendo" then r.valor else none

/-- Line 218: `df["Tasa"]` over every row (no type filter). -/
def tasaInc (r : ParsedRow) : Option ℚ := r.tasa

/-- `df[[...]].sum(axis=1)` over float columns (line 220); the cumulative
columns hold no NaN after their `fillna(0.0)`, so this is a plain sum. -/
def sumAxis1 (cells : List ℚ) : ℚ := cells.sum

/-- One row of the table `get_transactions_df` returns (line 228-231): the
eleven typed columns plus the derived columns of lines 204-221. -/
structure Row where
  fecha : PdTimestamp
  tipo : String
  producto : Option String
  isin : Option String
  bolsa : Option String
  centroEjecucion : Option String
  simbolo : Option String
  descripcion : Option String
  unidades : Option ℚ
  valor : Option ℚ
  tasa : Option ℚ
  total : Option ℚ
  ingresado : ℚ
  retirado : ℚ
  comprado : ℚ
  vendido : ℚ
  dividendosAcumulados : ℚ
  costesAcumulados : ℚ
  efectivo : ℚ
deriving DecidableEq

/-- Lines 204-221 on the date-sorted records: run the six signed running
totals in one pass and attach each row's displayed (absolute) cumulative
values and the `"Efectivo"` balance of lines 220-221.  `pd.to_datetime`
(line 204) is applied to each date here; it does not change the sort order,
so sorting the parsed records first is equivalent to the source's
convert-then-sort. -/
def deriveCums (aIng aRet aCom aVen aDiv aCos : ℚ) :
    List ParsedRow → List Row
  | [] => []
  | r :: rs =>
    let bIng := updAcc aIng (ingresoInc r)
    let bRet := updAcc aRet (retiradaInc r)
    let bCom := updAcc aCom (compraInc r)
    let bVen := updAcc aVen (ventaInc r)
    let bDiv := updAcc aDiv (dividendoInc r)
    let bCos := updAcc aCos (tasaInc r)
    { fecha := pd_to_datetime r.fecha, tipo := r.tipo,
      producto := r.producto, isin := r.isin, bolsa := r.bolsa,
      centroEjecucion := r.centroEjecucion, simbolo := r.simbolo,
      descripcion := r.descripcion, unidades := r.unidades,
      valor := r.valor, tasa := r.tasa, total := totalCell r,
      ingresado := absQ bIng, retirado := absQ bRet,
      comprado := absQ bCom, vendido := absQ bVen,
      dividendosAcumulados := absQ bDiv, costesAcumulados := absQ bCos,
      efectivo := sumAxis1 [absQ bIng, absQ bDiv, absQ bVen] -
                  sumAxis1 [absQ bRet, absQ bCom, absQ bCos] } ::
    deriveCums bIng bRet bCom bVen bDiv bCos rs

/-- `df.sort_values("Fecha")` (line 205): ascending by date. -/
def sortByFecha (parsed : List ParsedRow) : List ParsedRow :=
  List.insertionSort (fun a b => dateOrdinal a.fecha ≤ dateOrdinal b.fecha)
    parsed

/-- The normalized transaction table built from parsed records
(lines 199-231). -/
def buildTable (parsed : List ParsedRow) : List Row :=
  deriveCums 0 0 0 0 0 0 (sortByFecha parsed)

/-- `NotionAPI.get_transactions_df` (lines 139-231) as a function of the
query payload's `results` array. -/
def getTransactionsDf (entries : List RawEntry) : Except String (List Row) := do
  let parsed ← entries.mapM parseEntry
  pure (buildTable parsed)

/-- One row of `self.products` (lines 224-226). -/
structure ProductInfo where
  producto : String
  isin : String
  bolsa : String
  centroEjecucion : String
  simbolo : String
deriving DecidableEq

/-- The five identifier cells of a row, kept only when all are present
(`dropna`). -/
def productKey (r : Row) : Option ProductInfo :=
  match r.producto, r.isin, r.bolsa, r.centroEjecucion, r.simbolo with
  | some a, some b, some c, some d, some e => some ⟨a, b, c, d, e⟩
  | _, _, _, _, _ => none

/-- Lines 224-226: `df[cols].drop_duplicates().dropna()`.  `drop_duplicates`
keeps first occurrences, and dropping the incomplete rows before or after
de-duplicating full tuples yields the same list. -/
def productsOf (t : List Row) : List ProductInfo :=
  (t.filterMap productKey).eraseDups

/-! ## 6. Position builder (src/notion.py lines 233-334)

`get_his_positions_df` takes the transaction table, corrects the Sell sign
convention in place on that very table (lines 267-268), pivots the Buy/Sell
rows into a date-by-product quantity table (the pivot raises on duplicate
(date, product) pairs), joins market prices, and returns one of three output
shapes.  The two market-data providers (yfinance download, lines 286-287,
and the per-ticker Alpha Vantage fallback merge, lines 293-309) are a
network boundary: the model takes their merged post-fetch adjusted-close
series as an oracle `stock : String → Nat → Option ℚ` (ticker → calendar
day → adjusted close). -/

def MARKETS_DICT : List (String × String) := [("EAM", "AS"), ("XET", "DE")]

/-- Lines 277-278: `Símbolo + "." + Bolsa.replace(markets_dict)` — an
exchange code not in the table keeps its own code as the suffix. -/
def tickerYFinance (p : ProductInfo) : String :=
  p.simbolo ++ "." ++ ((MARKETS_DICT.lookup p.bolsa).getD p.bolsa)

/-- Lines 280-281: rename a product-name column label to its yfinance
ticker via `products.set_index("Producto")["ticker_yfinance"].to_dict()`;
a label with no entry in the dict is left unchanged. -/
def renameProducto (prods : List ProductInfo) (label : Option String) :
    Option String :=
  label.map fun n =>
    ((prods.find? (fun p => p.producto == n)).map tickerYFinance).getD n

/-- Lines 267-268:
`df_tran.loc[(Tipo == "Venta") & (Unidades > 0), "Unidades"] *= -1` applied
to one row: only a Sell row whose recorded units are positive is changed. -/
def signCorrectRow (r : Row) : Row :=
  match r.unidades with
  | some u =>
    if r.tipo = "Venta" ∧ 0 < u then { r with unidades := some (u * (-1)) }
    else r
  | none => r

/-- The state of the caller's `df_tran` after `get_his_positions_df` ran:
the sign correction mutates the given table in place (no copy is taken), so
the caller's reference now sees the corrected rows. -/
def tableAfterHisPositions (t : List Row) : List Row :=
  t.map signCorrectRow

/-- `df_tran["Tipo"].isin(["Compra", "Venta"])` (line 272). -/
def isTrade (r : Row) : Bool :=
  r.tipo == "Compra" || r.tipo == "Venta"

/-- The pivot key of a trade row: `index="Fecha", columns="Producto"`
(line 273). -/
def rowKey (r : Row) : Nat × Option String :=
  (dateOrdinal r.fecha.date, r.producto)

/-- The (Fecha, Producto) pairs of the Buy/Sell rows; `DataFrame.pivot`
raises `ValueError` exactly when they repeat. -/
def tradeKeys (t : List Row) : List (Nat × Option String) :=
  (t.filter isTrade).map rowKey

/-- Smallest `Fecha` ordinal of the table (`df_tran["Fecha"].min()`,
line 264); `none` on an empty table (pandas `NaT`, on which `date_range`
raises). -/
def minFechaOrdinal (t : List Row) : Option Nat :=
  match t with
  | [] => none
  | r :: rs => some (rs.foldl (fun m r2 => min m (dateOrdinal r2.fecha.date))
      (dateOrdinal r.fecha.date))

/-- `pd.date_range(min, today)` (line 264) as day ordinals. -/
def dateCalendar (dmin today : Nat) : List Nat :=
  List.range' dmin (today + 1 - dmin)

/-- NaN-preserving cumulative sum of one pivot column over the trade dates
(`.cumsum()`, line 274): a NaN cell stays NaN in the output while the
running total skips it. -/
def cumsumOptCol (acc : ℚ) : List (Option ℚ) → List (Option ℚ)
  | [] => []
  | some v :: t => some (acc + v) :: cumsumOptCol (acc + v) t
  | none :: t => none :: cumsumOptCol acc t

/-- `fillna(method="ffill")` along one column: carry the last present value
forward; leading gaps stay absent. -/
def ffillCol (last : Option ℚ) : List (Option ℚ) → List (Option ℚ)
  | [] => []
  | some v :: t => some v :: ffillCol (some v) t
  | none :: t => last :: ffillCol last t

/-- The distinct trade dates in ascending order: the pivot's index after
`.sort_index()` (lines 273-274). -/
def tradeDates (trades : List Row) : List Nat :=
  List.insertionSort (fun a b => a ≤ b)
    ((trades.map fun r => dateOrdinal r.fecha.date).eraseDups)

/-- The pivot cell at (date, product): the `Unidades` of the unique trade
row with that key (callers have checked uniqueness), NaN when no such row
or when its `Unidades` is absent. -/
def pivotCell (trades : List Row) (d : Nat) (p : Option String) : Option ℚ :=
  (trades.find? fun r => rowKey r == (d, p)).bind (·.unidades)

/-- One product's quantity column over the daily calendar (line 272-274):
pivot cells over the sorted trade dates, cumulative-summed, reindexed onto
the calendar, forward-filled. -/
def qtyColumn (trades : List Row) (calendar : List Nat) (p : Option String) :
    List (Option ℚ) :=
  let dates := tradeDates trades
  let cums := cumsumOptCol 0 (dates.map fun d => pivotCell trades d p)
  let pairs := dates.zip cums
  ffillCol none (calendar.map fun d => (pairs.lookup d).getD none)

/-- The pivot's column labels: the distinct `Producto` values of the trade
rows (pandas sorts column labels; no property below depends on their
order). -/
def tradeProducts (trades : List Row) : List (Option String) :=
  (trades.map (·.producto)).eraseDups

/-- One ticker's adjusted-close column over the calendar: the joined
`df_stock` data forward-filled (`join(...).fillna(method="ffill")`,
line 291; the oracle already contains the Alpha Vantage fallback merge of
lines 293-309). -/
def priceColumn (stock : String → Nat → Option ℚ) (calendar : List Nat)
    (tick : String) : List (Option ℚ) :=
  ffillCol none (calendar.map (stock tick))

/-- Lines 313-314: `Valor = Cantidad * Adj Close`, cellwise; NaN when either
side is absent. -/
def valorColumn (qty price : List (Option ℚ)) : List (Option ℚ) :=
  List.zipWith (fun a b =>
    match a, b with
    | some x, some y => some (x * y)
    | _, _ => none) qty price

/-- `df_tran.drop_duplicates("Fecha", keep="last")` keyed by date: the last
row of each date in the table's current order, as (ordinal, Efectivo)
pairs (line 317-318). -/
def lastEfectivoPerDate (t : List Row) : List (Nat × ℚ) :=
  t.foldl (fun acc r =>
    let d := dateOrdinal r.fecha.date
    if acc.any (fun kv => kv.1 == d) then
      acc.map fun kv => if kv.1 == d then (d, r.efectivo) else kv
    else acc ++ [(d, r.efectivo)]) []

/-- Lines 317-319: the synthetic `("Valor", "Efectivo")` cash column — one
Efectivo value per date, reindexed onto the calendar and forward-filled. -/
def efectivoColumn (t : List Row) (calendar : List Nat) : List (Option ℚ) :=
  ffillCol none (calendar.map fun d => (lastEfectivoPerDate t).lookup d)

/-- The wide-format result (lines 264-319): the daily calendar index with
the two-level (Métrica, Producto) columns — `Cantidad` per ticker,
`Adj Close` per ticker (the other downloaded price fields are unused),
`Valor` per ticker, and the `("Valor", "Efectivo")` cash column. -/
structure WideTable where
  fechas : List Nat
  cantidad : List (Option String × List (Option ℚ))
  adjClose : List (Option String × List (Option ℚ))
  valor : List (Option String × List (Option ℚ))
  valorEfectivo : List (Option ℚ)
deriving DecidableEq

/-- Assemble the wide table for the given (already sign-corrected) table. -/
def buildWide (t1 : List Row) (stock : String → Nat → Option ℚ)
    (calendar : List Nat) : WideTable :=
  let trades := t1.filter isTrade
  let prods := productsOf t1
  let labels := (tradeProducts trades).map (renameProducto prods)
  let tickOf : Option String → String := fun lab => lab.getD ""
  { fechas := calendar
    cantidad := (tradeProducts trades).map fun p =>
      (renameProducto prods p, qtyColumn trades calendar p)
    adjClose := labels.map fun lab =>
      (lab, priceColumn stock calendar (tickOf lab))
    valor := (tradeProducts trades).map fun p =>
      (renameProducto prods p,
       valorColumn (qtyColumn trades calendar p)
         (priceColumn stock calendar (tickOf (renameProducto prods p))))
    valorEfectivo := efectivoColumn t1 calendar }

/-- Lines 325-327 (`melt` to the long shape): one tuple per
(Fecha, Producto, Métrica) with its value; the cash column appears under
product label `"Efectivo"`. -/
def toLong (w : WideTable) :
    List (Nat × Option String × String × Option ℚ) :=
  (w.cantidad.flatMap fun pc =>
    (w.fechas.zip pc.2).map fun dv => (dv.1, pc.1, "Cantidad", dv.2)) ++
  (w.adjClose.flatMap fun pc =>
    (w.fechas.zip pc.2).map fun dv => (dv.1, pc.1, "Adj Close", dv.2)) ++
  (w.valor.flatMap fun pc =>
    (w.fechas.zip pc.2).map fun dv => (dv.1, pc.1, "Valor", dv.2)) ++
  ((w.fechas.zip w.valorEfectivo).map fun dv =>
    (dv.1, some "Efectivo", "Valor", dv.2))

/-- Line 331 (`stack` on the product level, `dropna=False`): one row per
(Fecha, Producto) with the three metrics as columns. -/
def toMixed (w : WideTable) :
    List ((Nat × Option String) × (Option ℚ × Option ℚ × Option ℚ)) :=
  let labels := (w.cantidad.map (·.1)) ++
    ((w.valor.map (·.1)).filter fun l => !(w.cantidad.map (·.1)).contains l) ++
    (if (w.cantidad.map (·.1)).contains (some "Efectivo") then []
     else [some "Efectivo"])
  let colAt : List (Option String × List (Option ℚ)) → Option String →
      Nat → Option ℚ := fun block lab i =>
    ((block.lookup lab).getD []).getD i none
  (List.range w.fechas.length).flatMap fun i =>
    labels.map fun lab =>
      ((w.fechas.getD i 0, lab),
       (colAt w.cantidad lab i, colAt w.adjClose lab i,
        if lab = some "Efectivo" then w.valorEfectivo.getD i none
        else colAt w.valor lab i))

/-- The failures `get_his_positions_df` can raise on its own data path:
`date_range` on an empty table's `NaT` minimum, the pivot's duplicate-index
`ValueError` (line 273), and the unsupported-format `ValueError`
(line 334). -/
inductive PosErr where
  | emptyTable
  | duplicateIndex
  | invalidFormat (msg : String)
deriving DecidableEq

/-- The three output shapes of lines 321-332. -/
inductive PosOut where
  | wide (w : WideTable)
  | long (l : List (Nat × Option String × String × Option ℚ))
  | mixed (m : List ((Nat × Option String) × (Option ℚ × Option ℚ × Option ℚ)))
deriving DecidableEq

/-- `NotionAPI.get_his_positions_df` (lines 233-334).  Order of effects as
in the source: build the calendar (line 264), mutate the Sell signs in
place (lines 267-268), pivot — raising on duplicate (Fecha, Producto) trade
keys (lines 272-274) — build the wide table, and only then dispatch on
`format_out` (lines 321-334). -/
def getHisPositionsDf (df_tran : List Row) (format_out : String)
    (stock : String → Nat → Option ℚ) (today : Nat) :
    Except PosErr PosOut :=
  match minFechaOrdinal df_tran with
  | none => .error .emptyTable
  | some dmin =>
    let calendar := dateCalendar dmin today
    let t1 := tableAfterHisPositions df_tran
    if (tradeKeys t1).Nodup then
      let w := buildWide t1 stock calendar
      if format_out = "wide" then .ok (.wide w)
      else if format_out = "long" then .ok (.long (toLong w))
      else if format_out = "mixed" then .ok (.mixed (toMixed w))
      else .error (.invalidFormat
        (format_out ++ " is not a valid format ('wide', 'long' or 'mixed')."))
    else .error .duplicateIndex

/-! ## 7. Performance calculator (src/notion.py lines 336-362)

`get_performance_df(df_tran, df_pos)` uses `df_pos` only through
`df_pos["Valor"].sum(axis=1)` — the daily total of the Value block.  Since
`df_pos` itself depends on the market-data oracle, the model takes that
summed series directly: `posDates` (the position table's daily index, as
ordinals, distinct and ascending) paired with `posVals`.  The movement
series is computed from `df_tran` as in lines 343-349. -/

/-- Lines 343-349 for one date: `sum of Ingreso Valor − sum of Retirada
Valor` over the rows of that date (pandas `.sum()` skips NaN cells).  On a
date with no Deposit/Withdrawal rows this is 0, which is also what the
`concat(...).fillna(0.0)` of line 357 puts there. -/
def sMovOn (t : List Row) (d : Nat) : ℚ :=
  ((t.filter fun r =>
      dateOrdinal r.fecha.date == d && r.tipo == "Ingreso").map
    (fun r => r.valor.getD 0)).sum -
  ((t.filter fun r =>
      dateOrdinal r.fecha.date == d && r.tipo == "Retirada").map
    (fun r => r.valor.getD 0)).sum

/-- The dates carrying a Deposit/Withdrawal row: the index of `s_mov`. -/
def movementDates (t : List Row) : List Nat :=
  ((t.filter fun r => r.tipo == "Ingreso" || r.tipo == "Retirada").map
    fun r => dateOrdinal r.fecha.date).eraseDups

/-- Lines 358-360: `ROR_daily = (EV − (SV+CF)) / (SV+CF) + 1`.  Float
division by `SV+CF = 0` yields NaN (0/0) or ±inf — in no case the number
the quotient would denote — modelled as `none`; otherwise the float
computation at the inputs of interest is exact. -/
def rorDailyCalc (ev sv cf : ℚ) : Option ℚ :=
  if sv + cf = 0 then none
  else some ((ev - (sv + cf)) / (sv + cf) + 1)

/-- One row of the performance table (line 357-360). -/
structure PerfRow where
  fecha : Nat
  valorAct : ℚ
  valorAnt : ℚ
  movimientos : ℚ
  rorDaily : Option ℚ
deriving DecidableEq

/-- `NotionAPI.get_performance_df` (lines 336-362).  `valorAnt` is the
position series shifted by one of its own index steps (line 352), NaN at
the first position date and at pure-movement dates, which the
`fillna(0.0)` of line 357 turns into 0; the row index is the union of the
position dates and the movement dates, ascending (pandas `concat`
alignment). -/
def getPerformanceDf (df_tran : List Row) (posDates : List Nat)
    (posVals : List ℚ) : List PerfRow :=
  let valAct := posDates.zip posVals
  let valAnt := posDates.zip ((none : Option ℚ) :: posVals.map some)
  let index := List.insertionSort (fun a b => a ≤ b)
    ((posDates ++ movementDates df_tran).eraseDups)
  index.map fun d =>
    let ev := (valAct.lookup d).getD 0
    let sv := ((valAnt.lookup d).getD none).getD 0
    let cf := sMovOn df_tran d
    { fecha := d, valorAct := ev, valorAnt := sv, movimientos := cf,
      rorDaily := rorDailyCalc ev sv cf }

/-! ## 8. Helper lemmas about the sign correction -/

lemma signCorrectRow_none (r : Row) (h : r.unidades = none) :
    signCorrectRow r = r := by
  simp [signCorrectRow, h]

lemma signCorrectRow_pos (r : Row) (v : ℚ) (h : r.unidades = some v)
    (hc : r.tipo = "Venta" ∧ 0 < v) :
    signCorrectRow r = { r with unidades := some (v * (-1)) } := by
  simp only [signCorrectRow, h]
  rw [if_pos hc]

lemma signCorrectRow_keep (r : Row) (v : ℚ) (h : r.unidades = some v)
    (hc : ¬(r.tipo = "Venta" ∧ 0 < v)) :
    signCorrectRow r = r := by
  simp only [signCorrectRow, h]
  rw [if_neg hc]

lemma signCorrectRow_tipo (r : Row) : (signCorrectRow r).tipo = r.tipo := by
  rcases huni : r.unidades with _ | v
  · rw [signCorrectRow_none r huni]
  · by_cases hc : r.tipo = "Venta" ∧ 0 < v
    · rw [signCorrectRow_pos r v huni hc]
    · rw [signCorrectRow_keep r v huni hc]

lemma signCorrectRow_fecha (r : Row) : (signCorrectRow r).fecha = r.fecha := by
  rcases huni : r.unidades with _ | v
  · rw [signCorrectRow_none r huni]
  · by_cases hc : r.tipo = "Venta" ∧ 0 < v
    · rw [signCorrectRow_pos r v huni hc]
    · rw [signCorrectRow_keep r v huni hc]

lemma signCorrectRow_producto (r : Row) :
    (signCorrectRow r).producto = r.producto := by
  rcases huni : r.unidades with _ | v
  · rw [signCorrectRow_none r huni]
  · by_cases hc : r.tipo = "Venta" ∧ 0 < v
    · rw [signCorrectRow_pos r v huni hc]
    · rw [signCorrectRow_keep r v huni hc]

lemma signCorrectRow_of_not_venta (r : Row) (h : r.tipo ≠ "Venta") :
    signCorrectRow r = r := by
  rcases huni : r.unidades with _ | v
  · exact signCorrectRow_none r huni
  · exact signCorrectRow_keep r v huni (fun hc => h hc.1)

lemma signCorrectRow_venta_unidades (r : Row)
    (h : (signCorrectRow r).tipo = "Venta") :
    ∀ u, (signCorrectRow r).unidades = some u → u ≤ 0 := by
  intro u hu
  rw [signCorrectRow_tipo] at h
  rcases huni : r.unidades with _ | v
  · rw [signCorrectRow_none r huni, huni] at hu
    exact Option.noConfusion hu
  · by_cases h2 : 0 < v
    · rw [signCorrectRow_pos r v huni ⟨h, h2⟩] at hu
      simp only [Option.some.injEq] at hu
      subst hu
      nlinarith
    · rw [signCorrectRow_keep r v huni (fun hc => h2 hc.2), huni] at hu
      simp only [Option.some.injEq] at hu
      subst hu
      exact le_of_not_lt h2

lemma signCorrectRow_idem (r : Row) :
    signCorrectRow (signCorrectRow r) = signCorrectRow r := by
  rcases huni : r.unidades with _ | v
  · rw [signCorrectRow_none r huni, signCorrectRow_none r huni]
  · by_cases hc : r.tipo = "Venta" ∧ 0 < v
    · rw [signCorrectRow_pos r v huni hc]
      apply signCorrectRow_keep _ (v * (-1))
      · rfl
      · intro hc2
        nlinarith [hc2.2, hc.2]
    · rw [signCorrectRow_keep r v huni hc, signCorrectRow_keep r v huni hc]

/-! ## 9. Claims about the client, the unwrap, and the sign correction -/

/-- C9: `retrieve_db` and `query_db` fail with `ConnectionError` iff the
response status differs from 200, return the JSON body unchanged on 200,
and behave identically; each is a pure function of the single response it
receives (no retry or partial handling exists in the source). -/
theorem ledger_client_status_dispatch {α : Type} (resp : HttpResponse α) :
    (retrieve_db resp = .ok resp.json ↔ resp.status_code = 200)
    ∧ (retrieve_db resp =
        .error ("Response status: " ++ toString resp.status_code) ↔
        resp.status_code ≠ 200)
    ∧ query_db resp = retrieve_db resp := by
  unfold retrieve_db query_db
  by_cases h : resp.status_code = 200 <;> simp [h]

/-- C2: the rich-text unwrap returns the absent value on zero runs, the
run's plain text on exactly one run, and fails with the
more-than-one-text-run `ValueError` on two or more runs; the three cases
are exhaustive and mutually exclusive (list lengths 0, 1 and ≥ 2 are
incompatible). -/
theorem extract_plain_text_cases (l : List TextRun) :
    ((l = [] → extract_plain_text l = .ok none)
      ∧ (∀ r, l = [r] → extract_plain_text l = .ok (some r.plain_text))
      ∧ (2 ≤ l.length →
          extract_plain_text l = .error "More than 1 element in list!"))
    ∧ (l = [] ∨ (∃ r, l = [r]) ∨ 2 ≤ l.length)
    ∧ ¬(l = [] ∧ ∃ r, l = [r])
    ∧ ¬(l = [] ∧ 2 ≤ l.length)
    ∧ ¬((∃ r, l = [r]) ∧ 2 ≤ l.length) := by
  match l with
  | [] => simp [extract_plain_text]
  | [r] => simp [extract_plain_text]
  | a :: b :: t =>
    refine ⟨⟨by simp, by simp, fun _ => rfl⟩, ?_, by simp, by simp, ?_⟩
    · right; right
      simp only [List.length_cons]
      omega
    · rintro ⟨⟨r, hr⟩, -⟩
      simp at hr

/-- C2 witness: the one-run case at a concrete run. -/
theorem extract_plain_text_cases_witness :
    extract_plain_text [⟨"hola"⟩] = .ok (some "hola") :=
  (extract_plain_text_cases [⟨"hola"⟩]).1.2.1 ⟨"hola"⟩ rfl

/-- C4: after the sign-correction step, every Sell row's recorded units
value is non-positive, and every Buy row's units are exactly what they
were before the call (positionally, via `Forall₂`). -/
theorem sell_sign_correction_spec (t : List Row) :
    (∀ r ∈ tableAfterHisPositions t, r.tipo = "Venta" →
      ∀ u, r.unidades = some u → u ≤ 0)
    ∧ List.Forall₂ (fun r r2 => r.tipo = "Compra" → r2.unidades = r.unidades)
      t (tableAfterHisPositions t) := by
  constructor
  · intro r hr htipo u hu
    obtain ⟨r0, -, rfl⟩ := List.mem_map.mp hr
    exact signCorrectRow_venta_unidades r0 htipo u hu
  · unfold tableAfterHisPositions
    induction t with
    | nil => exact List.Forall₂.nil
    | cons r rs ih =>
      refine List.Forall₂.cons ?_ ih
      intro hc
      rw [signCorrectRow_of_not_venta r (by simp [hc])]

/-- A concrete transaction table holding one Sell row recorded with
positive units (the convention-violating case the correction exists
for). -/
def exampleTableVenta : List Row :=
  buildTable [{ fecha := ⟨2022, 1, 3⟩, tipo := "Venta",
                producto := some "ACME", unidades := some 5,
                valor := some 2 }]

/-- C4 witness: on `exampleTableVenta` the corrected Sell row's units come
out as `-5`, and the Sell-row clause of the theorem applies there. -/
theorem sell_sign_correction_witness :
    ((tableAfterHisPositions exampleTableVenta).map (·.unidades) =
      [some (-5)])
    ∧ (∀ r ∈ tableAfterHisPositions exampleTableVenta, r.tipo = "Venta" →
        ∀ u, r.unidades = some u → u ≤ 0) :=
  ⟨by decide, (sell_sign_correction_spec exampleTableVenta).1⟩

/-- C7 counterexample: on a concrete table that the first application does
change, a second application of the sign-correction step leaves every unit
exactly as one application produced — refuting the claimed
non-idempotence at this input. -/
theorem sign_correction_second_application_no_change :
    tableAfterHisPositions (tableAfterHisPositions exampleTableVenta) =
      tableAfterHisPositions exampleTableVenta
    ∧ tableAfterHisPositions exampleTableVenta ≠ exampleTableVenta := by
  exact ⟨by decide, by decide⟩

/-- C7 amended: the Position Builder does mutate the Sell-sign convention
in place on the table instance it is given (the caller's table changes, as
the concrete conjunct shows), but the sign-correction step is idempotent:
repeat calls with the same table reference change nothing after the first
pass, because only Sell rows with still-positive units are flipped. -/
theorem sign_correction_mutation_amended :
    (∀ t : List Row, tableAfterHisPositions (tableAfterHisPositions t) =
      tableAfterHisPositions t)
    ∧ tableAfterHisPositions exampleTableVenta ≠ exampleTableVenta := by
  constructor
  · intro t
    unfold tableAfterHisPositions
    rw [List.map_map]
    exact List.map_congr_left fun r _ => signCorrectRow_idem r
  · decide

/-! ## 10. The cash-balance formula (C1) -/

lemma deriveCums_efectivo_eq (a1 a2 a3 a4 a5 a6 : ℚ)
    (rows : List ParsedRow) :
    (deriveCums a1 a2 a3 a4 a5 a6 rows).map (·.efectivo) =
    (deriveCums a1 a2 a3 a4 a5 a6 rows).map (fun r =>
      (r.ingresado + r.dividendosAcumulados + r.vendido) -
      (r.retirado + r.comprado + r.costesAcumulados)) := by
  induction rows generalizing a1 a2 a3 a4 a5 a6 with
  | nil => rfl
  | cons r rs ih =>
    simp only [deriveCums, List.map_cons, ih]
    congr 1
    simp only [sumAxis1, List.sum_cons, List.sum_nil]
    ring

/-- C1: in every table `get_transactions_df` returns, each row's `Efectivo`
equals (Ingresado + Dividendos acumulados + Vendido) −
(Retirado + Comprado + Costes acumulados), the six operands being that
row's cumulative columns. -/
theorem efectivo_is_cash_formula (entries : List RawEntry) (tbl : List Row)
    (h : getTransactionsDf entries = .ok tbl) :
    tbl.map (·.efectivo) = tbl.map (fun r =>
      (r.ingresado + r.dividendosAcumulados + r.vendido) -
      (r.retirado + r.comprado + r.costesAcumulados)) := by
  unfold getTransactionsDf at h
  cases hp : entries.mapM parseEntry with
  | error e =>
    rw [hp] at h
    exact Except.noConfusion h
  | ok parsed =>
    rw [hp] at h
    simp only [Except.bind, pure, Except.pure] at h
    cases h
    unfold buildTable
    exact deriveCums_efectivo_eq 0 0 0 0 0 0 (sortByFecha parsed)

/-- A one-deposit raw entry and its parsed form, for concrete evaluation. -/
def exampleEntryIngreso : RawEntry :=
  [("Fecha", .date "2022-01-05"), ("Tipo", .select "Ingreso"),
   ("Valor", .number (some 100))]

def exampleParsedIngreso : ParsedRow :=
  { fecha := ⟨2022, 1, 5⟩, tipo := "Ingreso", valor := some 100 }

/-- C1 witness: the formula evaluated on the concrete table built from one
deposit entry. -/
theorem efectivo_is_cash_formula_witness :
    getTransactionsDf [exampleEntryIngreso] =
      .ok (buildTable [exampleParsedIngreso])
    ∧ (buildTable [exampleParsedIngreso]).map (·.efectivo) =
      (buildTable [exampleParsedIngreso]).map (fun r =>
        (r.ingresado + r.dividendosAcumulados + r.vendido) -
        (r.retirado + r.comprado + r.costesAcumulados)) :=
  ⟨by decide,
   efectivo_is_cash_formula [exampleEntryIngreso] _ (by decide)⟩

/-! ## 11. Date timezone metadata (C5)

The repository's own test (src/tests/test_notion_API.py lines 30-31)
asserts `df_tran["Fecha"].dt.tz is timezone.utc`; the production pipeline
parses plain dates and converts them with `pd.to_datetime` without
`utc=True`, which yields tz-naive timestamps (`.dt.tz is None`), so the
assertion fails on every non-empty table. -/

/-- Modelled from the test suite (src/tests/test_notion_API.py, lines
30-31): the property `test_df_tran_dates_are_utc` asserts of a transaction
table — every materialized date carries the UTC timezone. -/
def testExpectsUtc (t : List Row) : Prop :=
  ∀ r ∈ t, r.fecha.tz = some "UTC"

/-- The `.dt.tz` metadata of the `Fecha` column of a normalizer result. -/
def tranTzColumn (res : Except String (List Row)) : List (Option String) :=
  match res with
  | .ok tbl => tbl.map (·.fecha.tz)
  | .error _ => []

/-- The raw entry with the date the repository's regression test pins
(2022-10-13). -/
def exampleEntryFecha : RawEntry :=
  [("Fecha", .date "2022-10-13"), ("Tipo", .select "Ingreso"),
   ("Valor", .number (some 1))]

lemma deriveCums_tz_none (a1 a2 a3 a4 a5 a6 : ℚ) (rows : List ParsedRow) :
    ∀ r ∈ deriveCums a1 a2 a3 a4 a5 a6 rows, r.fecha.tz = none := by
  induction rows generalizing a1 a2 a3 a4 a5 a6 with
  | nil => intro r hr; exact absurd hr (List.not_mem_nil r)
  | cons p ps ih =>
    intro r hr
    rcases List.mem_cons.mp hr with h | h
    · subst h; rfl
    · exact ih _ _ _ _ _ _ r h

/-- Every date the table stage materializes is tz-naive: the general fact
behind C5. -/
lemma buildTable_tz_none (parsed : List ParsedRow) :
    ∀ r ∈ buildTable parsed, r.fecha.tz = none :=
  deriveCums_tz_none 0 0 0 0 0 0 (sortByFecha parsed)

/-- C5: on the concrete failing input, the materialized date's timezone
metadata is `none` (tz-naive), so the test suite's UTC assertion
(`testExpectsUtc`) is false of the produced non-empty table — the code
contradicts its own test. -/
theorem fecha_tz_naive_at_failing_input :
    tranTzColumn (getTransactionsDf [exampleEntryFecha]) = [none]
    ∧ ¬ testExpectsUtc ((getTransactionsDf [exampleEntryFecha]).toOption.getD [])
    ∧ ((getTransactionsDf [exampleEntryFecha]).toOption.getD []) ≠ [] := by
  refine ⟨by decide, ?_, by decide⟩
  unfold testExpectsUtc
  decide

/-! ## 12. ROR growth factor (C6) -/

lemma rorDailyCalc_one (ev sv cf : ℚ) (h1 : cf = 0) (h2 : ev = sv)
    (h3 : sv + cf ≠ 0) : rorDailyCalc ev sv cf = some 1 := by
  subst h1
  subst h2
  unfold rorDailyCalc
  rw [if_neg h3]
  rw [add_zero] at h3 ⊢
  simp [sub_self, zero_div]

/-- C6 amended: in every performance series, on a row with zero net
external cash flow whose current total value equals the prior total value,
`ROR_daily` is exactly 1 — provided the denominator (prior value + net
flow) is nonzero.  When prior value and flow are both 0 the quotient is
0/0 and `ROR_daily` is NaN, not 1 (see the counterexample). -/
theorem ror_daily_growth_factor_amended (t : List Row) (posDates : List Nat)
    (posVals : List ℚ) (i : Nat)
    (h : i < (getPerformanceDf t posDates posVals).length)
    (hmov : ((getPerformanceDf t posDates posVals).get ⟨i, h⟩).movimientos = 0)
    (hval : ((getPerformanceDf t posDates posVals).get ⟨i, h⟩).valorAct =
      ((getPerformanceDf t posDates posVals).get ⟨i, h⟩).valorAnt)
    (hden : ((getPerformanceDf t posDates posVals).get ⟨i, h⟩).valorAnt +
      ((getPerformanceDf t posDates posVals).get ⟨i, h⟩).movimientos ≠ 0) :
    ((getPerformanceDf t posDates posVals).get ⟨i, h⟩).rorDaily = some 1 := by
  simp only [getPerformanceDf, List.get_eq_getElem, List.getElem_map]
    at hmov hval hden ⊢
  exact rorDailyCalc_one _ _ _ hmov hval hden

def perfOrd : Nat := dateOrdinal ⟨2022, 1, 1⟩

def perfExampleTable : List Row :=
  buildTable [{ fecha := ⟨2022, 1, 1⟩, tipo := "Ingreso", valor := some 100 }]

def perfExampleDates : List Nat := [perfOrd, perfOrd + 1]

def perfExampleVals : List ℚ := [100, 100]

/-- C6 witness: a no-flow, no-change day with nonzero value has growth
factor exactly 1. -/
theorem ror_daily_growth_factor_witness :
    1 < (getPerformanceDf perfExampleTable perfExampleDates
          perfExampleVals).length
    ∧ ((getPerformanceDf perfExampleTable perfExampleDates
          perfExampleVals).get ⟨1, by decide⟩).movimientos = 0
    ∧ ((getPerformanceDf perfExampleTable perfExampleDates
          perfExampleVals).get ⟨1, by decide⟩).valorAct =
      ((getPerformanceDf perfExampleTable perfExampleDates
          perfExampleVals).get ⟨1, by decide⟩).valorAnt
    ∧ ((getPerformanceDf perfExampleTable perfExampleDates
          perfExampleVals).get ⟨1, by decide⟩).valorAnt +
      ((getPerformanceDf perfExampleTable perfExampleDates
          perfExampleVals).get ⟨1, by decide⟩).movimientos ≠ 0
    ∧ ((getPerformanceDf perfExampleTable perfExampleDates
          perfExampleVals).get ⟨1, by decide⟩).rorDaily = some 1 :=
  ⟨by decide, by decide, by decide, by decide,
   ror_daily_growth_factor_amended perfExampleTable perfExampleDates
     perfExampleVals 1 (by decide) (by decide) (by decide) (by decide)⟩

def perfCexTable : List Row :=
  buildTable
    [{ fecha := ⟨2022, 1, 1⟩, tipo := "Ingreso", valor := some 100 },
     { fecha := ⟨2022, 1, 2⟩, tipo := "Retirada", valor := some 100 }]

def perfCexDates : List Nat := [perfOrd, perfOrd + 1, perfOrd + 2]

def perfCexVals : List ℚ := [100, 0, 0]

def perfCexRow : PerfRow :=
  (getPerformanceDf perfCexTable perfCexDates perfCexVals).getD 2
    ⟨0, 0, 0, 0, none⟩

/-- C6 counterexample: deposit 100, withdraw it all the next day; the third
day has zero net flow and zero value change (0 = 0), yet `ROR_daily` is
NaN (modelled `none`), not 1.0 — refuting the claim as stated. -/
theorem ror_daily_degenerate_day_counterexample :
    (getPerformanceDf perfCexTable perfCexDates perfCexVals).length = 3
    ∧ perfCexRow.movimientos = 0
    ∧ perfCexRow.valorAct = perfCexRow.valorAnt
    ∧ perfCexRow.rorDaily = none
    ∧ perfCexRow.rorDaily ≠ some 1 :=
  ⟨by decide, by decide, by decide, by decide, by decide⟩

/-! ## 13. Output-shape dispatch and pivot uniqueness (C8, C10) -/

lemma rowKey_signCorrect (r : Row) : rowKey (signCorrectRow r) = rowKey r := by
  unfold rowKey
  rw [signCorrectRow_fecha, signCorrectRow_producto]

lemma isTrade_signCorrect (r : Row) : isTrade (signCorrectRow r) = isTrade r := by
  unfold isTrade
  rw [signCorrectRow_tipo]

/-- The sign correction changes no pivot key: the duplicate check can be
read off the caller's table. -/
lemma tradeKeys_sign_correction (t : List Row) :
    tradeKeys (tableAfterHisPositions t) = tradeKeys t := by
  unfold tradeKeys tableAfterHisPositions
  induction t with
  | nil => rfl
  | cons r rs ih =>
    simp only [List.map_cons, List.filter_cons, isTrade_signCorrect]
    by_cases h : isTrade r
    · simp only [h, if_pos, List.map_cons, rowKey_signCorrect]
      exact congrArg _ ih
    · simp only [h, Bool.false_eq_true, if_false]
      exact ih

/-- C8 amended: for every non-empty transaction table whose Buy/Sell rows
have pairwise distinct (date, product) keys, requesting any shape outside
{"wide", "long", "mixed"} fails with the `InvalidInput` `ValueError`
carrying the "not a valid format" message, and each of the three supported
shapes returns a result.  The distinct-keys hypothesis is forced: the
pivot runs before the shape check, so a duplicate-key table fails with the
pivot's error instead (see the counterexample). -/
theorem format_dispatch_amended (t : List Row) (format_out : String)
    (stock : String → Nat → Option ℚ) (today : Nat)
    (hne : t ≠ []) (hnd : (tradeKeys t).Nodup) :
    (¬(format_out = "wide" ∨ format_out = "long" ∨ format_out = "mixed") →
      getHisPositionsDf t format_out stock today = .error (.invalidFormat
        (format_out ++ " is not a valid format ('wide', 'long' or 'mixed').")))
    ∧ ((format_out = "wide" ∨ format_out = "long" ∨ format_out = "mixed") →
      ∃ out, getHisPositionsDf t format_out stock today = .ok out) := by
  obtain ⟨r, rs, rfl⟩ : ∃ r rs, t = r :: rs := by
    cases t with
    | nil => exact absurd rfl hne
    | cons r rs => exact ⟨r, rs, rfl⟩
  have hnd2 : (tradeKeys (tableAfterHisPositions (r :: rs))).Nodup := by
    rw [tradeKeys_sign_correction]
    exact hnd
  constructor
  · intro hbad
    simp only [not_or] at hbad
    simp only [getHisPositionsDf, minFechaOrdinal]
    rw [if_pos hnd2, if_neg hbad.1, if_neg hbad.2.1, if_neg hbad.2.2]
  · intro hgood
    simp only [getHisPositionsDf, minFechaOrdinal]
    rw [if_pos hnd2]
    rcases hgood with hf | hf | hf
    · rw [if_pos hf]
      exact ⟨_, rfl⟩
    · by_cases hw : format_out = "wide"
      · rw [if_pos hw]
        exact ⟨_, rfl⟩
      · rw [if_neg hw, if_pos hf]
        exact ⟨_, rfl⟩
    · by_cases hw : format_out = "wide"
      · rw [if_pos hw]
        exact ⟨_, rfl⟩
      · by_cases hl : format_out = "long"
        · rw [if_neg hw, if_pos hl]
          exact ⟨_, rfl⟩
        · rw [if_neg hw, if_neg hl, if_pos hf]
          exact ⟨_, rfl⟩

/-- Two Buy rows of the same product on the same date: a table the pivot
rejects. -/
def dupTradeTable : List Row :=
  buildTable
    [{ fecha := ⟨2022, 1, 3⟩, tipo := "Compra", producto := some "ACME",
       unidades := some 1, valor := some 10 },
     { fecha := ⟨2022, 1, 3⟩, tipo := "Compra", producto := some "ACME",
       unidades := some 2, valor := some 10 }]

/-- One Buy and one Sell on distinct dates: a table the pivot accepts. -/
def cleanTradeTable : List Row :=
  buildTable
    [{ fecha := ⟨2022, 1, 3⟩, tipo := "Compra", producto := some "ACME",
       unidades := some 1, valor := some 10 },
     { fecha := ⟨2022, 1, 4⟩, tipo := "Venta", producto := some "ACME",
       unidades := some 1, valor := some 12 }]

/-- A market-data oracle with no coverage at all (its content is irrelevant
to the control-flow claims). -/
def stockEmpty : String → Nat → Option ℚ := fun _ _ => none

/-- C8 counterexample: on a non-empty table with a duplicate (date,
product) trade pair and the unsupported shape `"foo"`, the call fails with
the pivot's duplicate-index error, not with the `InvalidInput`
"not a valid format" error the claim promises for every non-empty table. -/
theorem format_rejection_counterexample :
    getHisPositionsDf dupTradeTable "foo" stockEmpty
      (dateOrdinal ⟨2022, 1, 5⟩) = .error .duplicateIndex
    ∧ getHisPositionsDf dupTradeTable "foo" stockEmpty
      (dateOrdinal ⟨2022, 1, 5⟩) ≠ .error (.invalidFormat
        ("foo is not a valid format ('wide', 'long' or 'mixed').")) :=
  ⟨by decide, by decide⟩

/-- C8 witness: a concrete duplicate-free non-empty table, with the
dispatch conclusion at the unsupported shape `"foo"`. -/
theorem format_dispatch_witness :
    cleanTradeTable ≠ [] ∧ (tradeKeys cleanTradeTable).Nodup
    ∧ ((¬("foo" = "wide" ∨ "foo" = "long" ∨ "foo" = "mixed") →
        getHisPositionsDf cleanTradeTable "foo" stockEmpty
          (dateOrdinal ⟨2022, 1, 5⟩) = .error (.invalidFormat
          ("foo" ++ " is not a valid format ('wide', 'long' or 'mixed').")))
      ∧ (("foo" = "wide" ∨ "foo" = "long" ∨ "foo" = "mixed") →
        ∃ out, getHisPositionsDf cleanTradeTable "foo" stockEmpty
          (dateOrdinal ⟨2022, 1, 5⟩) = .ok out)) :=
  ⟨by decide, by decide,
   format_dispatch_amended cleanTradeTable "foo" stockEmpty
     (dateOrdinal ⟨2022, 1, 5⟩) (by decide) (by decide)⟩

/-- C10: the pivot of trade rows into the date-by-product quantity table
rejects duplicate (date, product) entries — `get_his_positions_df` fails
on any non-empty table containing two or more Buy/Sell rows that share a
date and a product, and returns a position series when every such pair is
unique. -/
theorem pivot_duplicate_trade_keys (t : List Row)
    (stock : String → Nat → Option ℚ) (today : Nat) (hne : t ≠ []) :
    (¬ (tradeKeys t).Nodup →
      getHisPositionsDf t "wide" stock today = .error .duplicateIndex)
    ∧ ((tradeKeys t).Nodup →
      ∃ out, getHisPositionsDf t "wide" stock today = .ok out) := by
  obtain ⟨r, rs, rfl⟩ : ∃ r rs, t = r :: rs := by
    cases t with
    | nil => exact absurd rfl hne
    | cons r rs => exact ⟨r, rs, rfl⟩
  constructor
  · intro hdup
    have hdup2 : ¬ (tradeKeys (tableAfterHisPositions (r :: rs))).Nodup := by
      rw [tradeKeys_sign_correction]
      exact hdup
    simp only [getHisPositionsDf, minFechaOrdinal]
    rw [if_neg hdup2]
  · intro hnd
    have hnd2 : (tradeKeys (tableAfterHisPositions (r :: rs))).Nodup := by
      rw [tradeKeys_sign_correction]
      exact hnd
    simp only [getHisPositionsDf, minFechaOrdinal]
    rw [if_pos hnd2]
    exact ⟨_, if_pos trivial⟩

/-- C10 witness: the duplicate table is rejected with the pivot error; its
keys indeed repeat. -/
theorem pivot_duplicate_trade_keys_witness :
    dupTradeTable ≠ [] ∧ ¬ (tradeKeys dupTradeTable).Nodup
    ∧ ((¬ (tradeKeys dupTradeTable).Nodup →
        getHisPositionsDf dupTradeTable "wide" stockEmpty
          (dateOrdinal ⟨2022, 1, 5⟩) = .error .duplicateIndex)
      ∧ ((tradeKeys dupTradeTable).Nodup →
        ∃ out, getHisPositionsDf dupTradeTable "wide" stockEmpty
          (dateOrdinal ⟨2022, 1, 5⟩) = .ok out)) :=
  ⟨by decide, by decide,
   pivot_duplicate_trade_keys dupTradeTable stockEmpty
     (dateOrdinal ⟨2022, 1, 5⟩) (by decide)⟩

/-! ## 14. Cumulative-column lemmas (towards C3) -/

lemma absQ_nonneg (x : ℚ) : 0 ≤ absQ x := by
  unfold absQ
  split
  · linarith
  · linarith

lemma absQ_nonneg_eq (x : ℚ) (h : 0 ≤ x) : absQ x = x := by
  unfold absQ
  rw [if_neg (not_lt.mpr h)]

lemma absQ_nonpos_eq (x : ℚ) (h : x ≤ 0) : absQ x = -x := by
  unfold absQ
  rcases lt_or_eq_of_le h with h2 | h2
  · rw [if_pos h2]
  · subst h2
    norm_num

lemma cumsumFfill_length (a : ℚ) (incs : List (Option ℚ)) :
    (cumsumFfill a incs).length = incs.length := by
  induction incs generalizing a with
  | nil => rfl
  | cons c cs ih => simp [cumsumFfill, ih]

lemma cumsumFfill_ge (a : ℚ) (incs : List (Option ℚ))
    (h : ∀ o ∈ incs, ∀ v, o = some v → 0 ≤ v) :
    ∀ x ∈ cumsumFfill a incs, a ≤ x := by
  induction incs generalizing a with
  | nil => simp [cumsumFfill]
  | cons c cs ih =>
    intro x hx
    simp only [cumsumFfill, List.mem_cons] at hx
    have htail : ∀ o ∈ cs, ∀ v, o = some v → 0 ≤ v :=
      fun o ho v hv => h o (List.mem_cons_of_mem _ ho) v hv
    rcases c with _ | v
    · simp only [updAcc] at hx
      rcases hx with rfl | hx
      · exact le_refl x
      · exact ih a htail x hx
    · have hv : 0 ≤ v := h (some v) (List.mem_cons_self _ _) v rfl
      simp only [updAcc] at hx
      rcases hx with rfl | hx
      · linarith
      · have := ih (a + v) htail x hx
        linarith

lemma cumsumFfill_le (a : ℚ) (incs : List (Option ℚ))
    (h : ∀ o ∈ incs, ∀ v, o = some v → v ≤ 0) :
    ∀ x ∈ cumsumFfill a incs, x ≤ a := by
  induction incs generalizing a with
  | nil => simp [cumsumFfill]
  | cons c cs ih =>
    intro x hx
    simp only [cumsumFfill, List.mem_cons] at hx
    have htail : ∀ o ∈ cs, ∀ v, o = some v → v ≤ 0 :=
      fun o ho v hv => h o (List.mem_cons_of_mem _ ho) v hv
    rcases c with _ | v
    · simp only [updAcc] at hx
      rcases hx with rfl | hx
      · exact le_refl x
      · exact ih a htail x hx
    · have hv : v ≤ 0 := h (some v) (List.mem_cons_self _ _) v rfl
      simp only [updAcc] at hx
      rcases hx with rfl | hx
      · linarith
      · have := ih (a + v) htail x hx
        linarith

lemma cumsumFfill_pairwise_of_nonneg (a : ℚ) (incs : List (Option ℚ))
    (h : ∀ o ∈ incs, ∀ v, o = some v → 0 ≤ v) :
    (cumsumFfill a incs).Pairwise (· ≤ ·) := by
  induction incs generalizing a with
  | nil => exact List.Pairwise.nil
  | cons c cs ih =>
    have htail : ∀ o ∈ cs, ∀ v, o = some v → 0 ≤ v :=
      fun o ho v hv => h o (List.mem_cons_of_mem _ ho) v hv
    simp only [cumsumFfill, List.pairwise_cons]
    exact ⟨cumsumFfill_ge (updAcc a c) cs htail, ih (updAcc a c) htail⟩

lemma cumsumFfill_pairwise_of_nonpos (a : ℚ) (incs : List (Option ℚ))
    (h : ∀ o ∈ incs, ∀ v, o = some v → v ≤ 0) :
    (cumsumFfill a incs).Pairwise (fun x y => y ≤ x) := by
  induction incs generalizing a with
  | nil => exact List.Pairwise.nil
  | cons c cs ih =>
    have htail : ∀ o ∈ cs, ∀ v, o = some v → v ≤ 0 :=
      fun o ho v hv => h o (List.mem_cons_of_mem _ ho) v hv
    simp only [cumsumFfill, List.pairwise_cons]
    exact ⟨cumsumFfill_le (updAcc a c) cs htail, ih (updAcc a c) htail⟩

/-- The displayed absolute cumulative column is non-decreasing whenever all
present increments share one (weak) sign. -/
lemma pairwise_absCol_of_sameSign (incs : List (Option ℚ))
    (h : (∀ o ∈ incs, ∀ v, o = some v → 0 ≤ v) ∨
         (∀ o ∈ incs, ∀ v, o = some v → v ≤ 0)) :
    ((cumsumFfill 0 incs).map absQ).Pairwise (· ≤ ·) := by
  rcases h with h | h
  · have hge := cumsumFfill_ge 0 incs h
    rw [List.map_congr_left (fun x hx => absQ_nonneg_eq x (hge x hx)),
      List.map_id']
    exact cumsumFfill_pairwise_of_nonneg 0 incs h
  · have hle := cumsumFfill_le 0 incs h
    rw [List.map_congr_left (fun x hx => absQ_nonpos_eq x (hle x hx)),
      List.pairwise_map]
    exact (cumsumFfill_pairwise_of_nonpos 0 incs h).imp
      (fun hxy => neg_le_neg hxy)

lemma cumsumFfill_prefix_eq (a : ℚ) (incs : List (Option ℚ)) (i : Nat)
    (hi : i < (cumsumFfill a incs).length)
    (hz : ∀ j, j ≤ i → ∀ (hj : j < incs.length), incs.get ⟨j, hj⟩ = none) :
    (cumsumFfill a incs).get ⟨i, hi⟩ = a := by
  induction incs generalizing a i with
  | nil => simp [cumsumFfill] at hi
  | cons c cs ih =>
    have hc : c = none := hz 0 (Nat.zero_le i) (by simp)
    subst hc
    cases i with
    | zero => simp [cumsumFfill, updAcc]
    | succ k =>
      have hi2 : k < (cumsumFfill a cs).length := by
        simp only [cumsumFfill, updAcc, List.length_cons] at hi
        omega
      have := ih a k hi2 (fun j hj hjlt =>
        hz (j + 1) (by omega) (by simp only [List.length_cons]; omega))
      simpa [cumsumFfill, updAcc] using this

/-! ## 15. Column/field projections of the derived table (towards C3) -/

lemma deriveCums_length (a1 a2 a3 a4 a5 a6 : ℚ) (rows : List ParsedRow) :
    (deriveCums a1 a2 a3 a4 a5 a6 rows).length = rows.length := by
  induction rows generalizing a1 a2 a3 a4 a5 a6 with
  | nil => rfl
  | cons r rs ih => simp [deriveCums, ih]

lemma deriveCums_map_ingresado (a1 a2 a3 a4 a5 a6 : ℚ)
    (rows : List ParsedRow) :
    (deriveCums a1 a2 a3 a4 a5 a6 rows).map (·.ingresado) =
    (cumsumFfill a1 (rows.map ingresoInc)).map absQ := by
  induction rows generalizing a1 a2 a3 a4 a5 a6 with
  | nil => rfl
  | cons r rs ih =>
    simp only [deriveCums, List.map_cons, cumsumFfill]
    rw [ih]

lemma deriveCums_map_retirado (a1 a2 a3 a4 a5 a6 : ℚ)
    (rows : List ParsedRow) :
    (deriveCums a1 a2 a3 a4 a5 a6 rows).map (·.retirado) =
    (cumsumFfill a2 (rows.map retiradaInc)).map absQ := by
  induction rows generalizing a1 a2 a3 a4 a5 a6 with
  | nil => rfl
  | cons r rs ih =>
    simp only [deriveCums, List.map_cons, cumsumFfill]
    rw [ih]

lemma deriveCums_map_comprado (a1 a2 a3 a4 a5 a6 : ℚ)
    (rows : List ParsedRow) :
    (deriveCums a1 a2 a3 a4 a5 a6 rows).map (·.comprado) =
    (cumsumFfill a3 (rows.map compraInc)).map absQ := by
  induction rows generalizing a1 a2 a3 a4 a5 a6 with
  | nil => rfl
  | cons r rs ih =>
    simp only [deriveCums, List.map_cons, cumsumFfill]
    rw [ih]

lemma deriveCums_map_vendido (a1 a2 a3 a4 a5 a6 : ℚ)
    (rows : List ParsedRow) :
    (deriveCums a1 a2 a3 a4 a5 a6 rows).map (·.vendido) =
    (cumsumFfill a4 (rows.map ventaInc)).map absQ := by
  induction rows generalizing a1 a2 a3 a4 a5 a6 with
  | nil => rfl
  | cons r rs ih =>
    simp only [deriveCums, List.map_cons, cumsumFfill]
    rw [ih]

lemma deriveCums_map_dividendos (a1 a2 a3 a4 a5 a6 : ℚ)
    (rows : List ParsedRow) :
    (deriveCums a1 a2 a3 a4 a5 a6 rows).map (·.dividendosAcumulados) =
    (cumsumFfill a5 (rows.map dividendoInc)).map absQ := by
  induction rows generalizing a1 a2 a3 a4 a5 a6 with
  | nil => rfl
  | cons r rs ih =>
    simp only [deriveCums, List.map_cons, cumsumFfill]
    rw [ih]

lemma deriveCums_map_costes (a1 a2 a3 a4 a5 a6 : ℚ)
    (rows : List ParsedRow) :
    (deriveCums a1 a2 a3 a4 a5 a6 rows).map (·.costesAcumulados) =
    (cumsumFfill a6 (rows.map tasaInc)).map absQ := by
  induction rows generalizing a1 a2 a3 a4 a5 a6 with
  | nil => rfl
  | cons r rs ih =>
    simp only [deriveCums, List.map_cons, cumsumFfill]
    rw [ih]

lemma deriveCums_get_fields (a1 a2 a3 a4 a5 a6 : ℚ) (rows : List ParsedRow)
    (j : Nat) (hjT : j < (deriveCums a1 a2 a3 a4 a5 a6 rows).length)
    (hjR : j < rows.length) :
    ((deriveCums a1 a2 a3 a4 a5 a6 rows).get ⟨j, hjT⟩).tipo =
      (rows.get ⟨j, hjR⟩).tipo
    ∧ ((deriveCums a1 a2 a3 a4 a5 a6 rows).get ⟨j, hjT⟩).tasa =
      (rows.get ⟨j, hjR⟩).tasa
    ∧ dateOrdinal ((deriveCums a1 a2 a3 a4 a5 a6 rows).get ⟨j, hjT⟩).fecha.date =
      dateOrdinal (rows.get ⟨j, hjR⟩).fecha := by
  induction rows generalizing a1 a2 a3 a4 a5 a6 j with
  | nil => simp at hjR
  | cons r rs ih =>
    cases j with
    | zero => exact ⟨rfl, rfl, rfl⟩
    | succ k =>
      have hk : k < rs.length := by
        simp only [List.length_cons] at hjR
        omega
      have hkT : k < (deriveCums (updAcc a1 (ingresoInc r))
          (updAcc a2 (retiradaInc r)) (updAcc a3 (compraInc r))
          (updAcc a4 (ventaInc r)) (updAcc a5 (dividendoInc r))
          (updAcc a6 (tasaInc r)) rs).length := by
        rw [deriveCums_length]
        exact hk
      exact ih _ _ _ _ _ _ k hkT hk

lemma deriveCums_mem_source (a1 a2 a3 a4 a5 a6 : ℚ) (rows : List ParsedRow) :
    ∀ p ∈ rows, ∃ rT ∈ deriveCums a1 a2 a3 a4 a5 a6 rows,
      rT.tipo = p.tipo ∧ rT.valor = p.valor ∧ rT.tasa = p.tasa := by
  induction rows generalizing a1 a2 a3 a4 a5 a6 with
  | nil => intro p hp; exact absurd hp (List.not_mem_nil p)
  | cons q qs ih =>
    intro p hp
    rcases List.mem_cons.mp hp with rfl | hp
    · exact ⟨_, List.mem_cons_self _ _, rfl, rfl, rfl⟩
    · obtain ⟨rT, hrT, hfields⟩ := ih _ _ _ _ _ _ p hp
      exact ⟨rT, List.mem_cons_of_mem _ hrT, hfields⟩

instance : IsTotal ParsedRow
    (fun p q => dateOrdinal p.fecha ≤ dateOrdinal q.fecha) :=
  ⟨fun _ _ => Nat.le_total _ _⟩

instance : IsTrans ParsedRow
    (fun p q => dateOrdinal p.fecha ≤ dateOrdinal q.fecha) :=
  ⟨fun _ _ _ h1 h2 => Nat.le_trans h1 h2⟩

lemma sortByFecha_pairwise (parsed : List ParsedRow) :
    (sortByFecha parsed).Pairwise
      (fun p q => dateOrdinal p.fecha ≤ dateOrdinal q.fecha) := by
  unfold sortByFecha
  have h := List.sorted_insertionSort
    (fun p q : ParsedRow => dateOrdinal p.fecha ≤ dateOrdinal q.fecha) parsed
  exact h

/-! ## 16. Statement vocabulary for the cumulative-column claim (C3) -/

/-- A column (read top-to-bottom, i.e. ascending by date) never
decreases. -/
def nonDecreasing (l : List ℚ) : Prop := l.Pairwise (· ≤ ·)

/-- All `Valor` amounts of rows of type `tp` share one (weak) sign
(an absent amount counts as 0, which satisfies both signs). -/
def sameSignValores (T : List Row) (tp : String) : Prop :=
  (∀ r ∈ T, r.tipo = tp → 0 ≤ r.valor.getD 0) ∨
  (∀ r ∈ T, r.tipo = tp → r.valor.getD 0 ≤ 0)

/-- All `Tasa` amounts share one (weak) sign. -/
def sameSignTasas (T : List Row) : Prop :=
  (∀ r ∈ T, 0 ≤ r.tasa.getD 0) ∨ (∀ r ∈ T, r.tasa.getD 0 ≤ 0)

/-- The column `col` is 0 on every row dated strictly before every
`trigger` row of the table. -/
def zeroBeforeFirst (T : List Row) (trigger : Row → Prop)
    (col : Row → ℚ) : Prop :=
  ∀ i, ∀ (h : i < T.length),
    (∀ r2 ∈ T, trigger r2 →
      dateOrdinal (T.get ⟨i, h⟩).fecha.date < dateOrdinal r2.fecha.date) →
    col (T.get ⟨i, h⟩) = 0

lemma buildTable_length (parsed : List ParsedRow) :
    (buildTable parsed).length = (sortByFecha parsed).length := by
  unfold buildTable
  exact deriveCums_length 0 0 0 0 0 0 (sortByFecha parsed)

lemma buildTable_get_fields (parsed : List ParsedRow) (j : Nat)
    (hjT : j < (buildTable parsed).length)
    (hjR : j < (sortByFecha parsed).length) :
    ((buildTable parsed).get ⟨j, hjT⟩).tipo =
      ((sortByFecha parsed).get ⟨j, hjR⟩).tipo
    ∧ ((buildTable parsed).get ⟨j, hjT⟩).tasa =
      ((sortByFecha parsed).get ⟨j, hjR⟩).tasa
    ∧ dateOrdinal ((buildTable parsed).get ⟨j, hjT⟩).fecha.date =
      dateOrdinal ((sortByFecha parsed).get ⟨j, hjR⟩).fecha := by
  unfold buildTable at hjT ⊢
  exact deriveCums_get_fields 0 0 0 0 0 0 (sortByFecha parsed) j hjT hjR

lemma compraInc_nonneg (p : ParsedRow) :
    ∀ v, compraInc p = some v → 0 ≤ v := by
  intro v hv
  unfold compraInc at hv
  by_cases ht : p.tipo = "Compra"
  · rw [if_pos ht] at hv
    unfold totalCell at hv
    rcases hu : p.unidades with _ | u <;> rcases hw : p.valor with _ | w <;>
      rw [hu, hw] at hv <;> simp at hv
    subst hv
    exact absQ_nonneg _
  · rw [if_neg ht] at hv
    exact absurd hv (by simp)

lemma ventaInc_nonneg (p : ParsedRow) :
    ∀ v, ventaInc p = some v → 0 ≤ v := by
  intro v hv
  unfold ventaInc at hv
  by_cases ht : p.tipo = "Venta"
  · rw [if_pos ht] at hv
    unfold totalCell at hv
    rcases hu : p.unidades with _ | u <;> rcases hw : p.valor with _ | w <;>
      rw [hu, hw] at hv <;> simp at hv
    subst hv
    exact absQ_nonneg _
  · rw [if_neg ht] at hv
    exact absurd hv (by simp)

lemma sameSign_transfer (parsed : List ParsedRow) (tp : String)
    (inc : ParsedRow → Option ℚ)
    (hif : ∀ p v, inc p = some v → p.tipo = tp ∧ p.valor = some v)
    (hss : sameSignValores (buildTable parsed) tp) :
    (∀ o ∈ (sortByFecha parsed).map inc, ∀ v, o = some v → 0 ≤ v) ∨
    (∀ o ∈ (sortByFecha parsed).map inc, ∀ v, o = some v → v ≤ 0) := by
  have key : ∀ p ∈ sortByFecha parsed, ∀ v, inc p = some v →
      ∃ rT ∈ buildTable parsed, rT.tipo = tp ∧ rT.valor = some v := by
    intro p hp v hv
    obtain ⟨ht, hval⟩ := hif p v hv
    obtain ⟨rT, hrT, htipo, hvalor, -⟩ :=
      deriveCums_mem_source 0 0 0 0 0 0 (sortByFecha parsed) p hp
    exact ⟨rT, hrT, htipo.trans ht, hvalor.trans hval⟩
  rcases hss with hs | hs
  · left
    intro o ho v hv
    obtain ⟨p, hp, rfl⟩ := List.mem_map.mp ho
    obtain ⟨rT, hrT, ht, hval⟩ := key p hp v hv
    have h0 := hs rT hrT ht
    rw [hval] at h0
    simpa using h0
  · right
    intro o ho v hv
    obtain ⟨p, hp, rfl⟩ := List.mem_map.mp ho
    obtain ⟨rT, hrT, ht, hval⟩ := key p hp v hv
    have h0 := hs rT hrT ht
    rw [hval] at h0
    simpa using h0

lemma sameSignTasas_transfer (parsed : List ParsedRow)
    (hss : sameSignTasas (buildTable parsed)) :
    (∀ o ∈ (sortByFecha parsed).map tasaInc, ∀ v, o = some v → 0 ≤ v) ∨
    (∀ o ∈ (sortByFecha parsed).map tasaInc, ∀ v, o = some v → v ≤ 0) := by
  have key : ∀ p ∈ sortByFecha parsed, ∀ v, tasaInc p = some v →
      ∃ rT ∈ buildTable parsed, rT.tasa = some v := by
    intro p hp v hv
    obtain ⟨rT, hrT, -, -, htasa⟩ :=
      deriveCums_mem_source 0 0 0 0 0 0 (sortByFecha parsed) p hp
    exact ⟨rT, hrT, htasa.trans hv⟩
  rcases hss with hs | hs
  · left
    intro o ho v hv
    obtain ⟨p, hp, rfl⟩ := List.mem_map.mp ho
    obtain ⟨rT, hrT, hval⟩ := key p hp v hv
    have h0 := hs rT hrT
    rw [hval] at h0
    simpa using h0
  · right
    intro o ho v hv
    obtain ⟨p, hp, rfl⟩ := List.mem_map.mp ho
    obtain ⟨rT, hrT, hval⟩ := key p hp v hv
    have h0 := hs rT hrT
    rw [hval] at h0
    simpa using h0

lemma absCol_prefix_zero (incs : List (Option ℚ)) (i : Nat)
    (hi : i < ((cumsumFfill 0 incs).map absQ).length)
    (hz : ∀ j, j ≤ i → ∀ (hj : j < incs.length), incs.get ⟨j, hj⟩ = none) :
    ((cumsumFfill 0 incs).map absQ).get ⟨i, hi⟩ = 0 := by
  rw [List.get_map]
  rw [cumsumFfill_prefix_eq 0 incs i (by simpa using hi) hz]
  norm_num [absQ]

lemma zeroBefore_generic (parsed : List ParsedRow)
    (inc : ParsedRow → Option ℚ) (trigger : Row → Prop) (col : Row → ℚ)
    (hcol : (buildTable parsed).map col =
      (cumsumFfill 0 ((sortByFecha parsed).map inc)).map absQ)
    (htrig : ∀ j (hjR : j < (sortByFecha parsed).length)
        (hjT : j < (buildTable parsed).length),
        inc ((sortByFecha parsed).get ⟨j, hjR⟩) ≠ none →
        trigger ((buildTable parsed).get ⟨j, hjT⟩)) :
    zeroBeforeFirst (buildTable parsed) trigger col := by
  intro i hi hbefore
  have hlenT := buildTable_length parsed
  have hiR : i < (sortByFecha parsed).length := hlenT ▸ hi
  have hmapi : i < ((buildTable parsed).map col).length := by
    simpa using hi
  have hz : ∀ j, j ≤ i →
      ∀ (hj : j < ((sortByFecha parsed).map inc).length),
      ((sortByFecha parsed).map inc).get ⟨j, hj⟩ = none := by
    intro j hji hj
    have hjR : j < (sortByFecha parsed).length := by simpa using hj
    have hjT : j < (buildTable parsed).length := by
      rw [hlenT]
      exact hjR
    rw [List.get_map]
    by_contra hne
    have htr : trigger ((buildTable parsed).get ⟨j, hjT⟩) :=
      htrig j hjR hjT hne
    have hmem : (buildTable parsed).get ⟨j, hjT⟩ ∈ buildTable parsed :=
      List.get_mem _ _ _
    have hlt := hbefore _ hmem htr
    have hordj := (buildTable_get_fields parsed j hjT hjR).2.2
    have hordi := (buildTable_get_fields parsed i hi hiR).2.2
    rw [hordi, hordj] at hlt
    have hj_le_i : dateOrdinal ((sortByFecha parsed).get ⟨j, hjR⟩).fecha ≤
        dateOrdinal ((sortByFecha parsed).get ⟨i, hiR⟩).fecha := by
      rcases Nat.lt_or_ge j i with hlt2 | hge
      · exact List.pairwise_iff_get.mp (sortByFecha_pairwise parsed)
          ⟨j, hjR⟩ ⟨i, hiR⟩ hlt2
      · have hji2 : j = i := le_antisymm hji hge
        subst hji2
        exact le_refl _
    omega
  have e2 : ((buildTable parsed).map col).get ⟨i, hmapi⟩ = 0 := by
    rw [List.get_of_eq hcol ⟨i, hmapi⟩]
    exact absCol_prefix_zero _ i _ hz
  have e1 : col ((buildTable parsed).get ⟨i, hi⟩) =
      ((buildTable parsed).map col).get ⟨i, hmapi⟩ := by
    rw [List.get_map]
  exact e1.trans e2

/-! ## 17. The cumulative-column claim (C3) -/

/-- C3 amended: in every table `get_transactions_df` produces (sorted
ascending by date), `Comprado` and `Vendido` are unconditionally
non-decreasing (their increments are the absolute gross totals of line
211); `Ingresado`, `Retirado` and `Dividendos acumulados` are
non-decreasing provided all `Valor` amounts of the triggering type share
one sign, and `Costes acumulados` provided all `Tasa` amounts share one
sign (each column is the absolute value of a signed running sum, so
mixed-sign amounts can make it decrease — see the counterexample); and
every column is 0 on each row dated before the first transaction of its
triggering type (for `Costes acumulados`: before the first row carrying a
fee). -/
theorem cumulative_columns_amended (parsed : List ParsedRow) :
    (nonDecreasing ((buildTable parsed).map (·.comprado))
      ∧ nonDecreasing ((buildTable parsed).map (·.vendido)))
    ∧ (sameSignValores (buildTable parsed) "Ingreso" →
        nonDecreasing ((buildTable parsed).map (·.ingresado)))
    ∧ (sameSignValores (buildTable parsed) "Retirada" →
        nonDecreasing ((buildTable parsed).map (·.retirado)))
    ∧ (sameSignValores (buildTable parsed) "Dividendo" →
        nonDecreasing ((buildTable parsed).map (·.dividendosAcumulados)))
    ∧ (sameSignTasas (buildTable parsed) →
        nonDecreasing ((buildTable parsed).map (·.costesAcumulados)))
    ∧ zeroBeforeFirst (buildTable parsed)
        (fun r => r.tipo = "Ingreso") (·.ingresado)
    ∧ zeroBeforeFirst (buildTable parsed)
        (fun r => r.tipo = "Retirada") (·.retirado)
    ∧ zeroBeforeFirst (buildTable parsed)
        (fun r => r.tipo = "Compra") (·.comprado)
    ∧ zeroBeforeFirst (buildTable parsed)
        (fun r => r.tipo = "Venta") (·.vendido)
    ∧ zeroBeforeFirst (buildTable parsed)
        (fun r => r.tipo = "Dividendo") (·.dividendosAcumulados)
    ∧ zeroBeforeFirst (buildTable parsed)
        (fun r => r.tasa ≠ none) (·.costesAcumulados) := by
  have hcomp : nonDecreasing ((buildTable parsed).map (·.comprado)) := by
    unfold nonDecreasing buildTable
    rw [deriveCums_map_comprado]
    refine pairwise_absCol_of_sameSign _ (Or.inl ?_)
    intro o ho v hv
    obtain ⟨p, hp, rfl⟩ := List.mem_map.mp ho
    exact compraInc_nonneg p v hv
  have hvend : nonDecreasing ((buildTable parsed).map (·.vendido)) := by
    unfold nonDecreasing buildTable
    rw [deriveCums_map_vendido]
    refine pairwise_absCol_of_sameSign _ (Or.inl ?_)
    intro o ho v hv
    obtain ⟨p, hp, rfl⟩ := List.mem_map.mp ho
    exact ventaInc_nonneg p v hv
  have hing : sameSignValores (buildTable parsed) "Ingreso" →
      nonDecreasing ((buildTable parsed).map (·.ingresado)) := by
    intro hss
    unfold nonDecreasing buildTable
    rw [deriveCums_map_ingresado]
    refine pairwise_absCol_of_sameSign _
      (sameSign_transfer parsed "Ingreso" ingresoInc ?_ hss)
    intro p v hv
    unfold ingresoInc at hv
    by_cases ht : p.tipo = "Ingreso"
    · rw [if_pos ht] at hv
      exact ⟨ht, hv⟩
    · rw [if_neg ht] at hv
      exact absurd hv (by simp)
  have hret : sameSignValores (buildTable parsed) "Retirada" →
      nonDecreasing ((buildTable parsed).map (·.retirado)) := by
    intro hss
    unfold nonDecreasing buildTable
    rw [deriveCums_map_retirado]
    refine pairwise_absCol_of_sameSign _
      (sameSign_transfer parsed "Retirada" retiradaInc ?_ hss)
    intro p v hv
    unfold retiradaInc at hv
    by_cases ht : p.tipo = "Retirada"
    · rw [if_pos ht] at hv
      exact ⟨ht, hv⟩
    · rw [if_neg ht] at hv
      exact absurd hv (by simp)
  have hdiv : sameSignValores (buildTable parsed) "Dividendo" →
      nonDecreasing ((buildTable parsed).map (·.dividendosAcumulados)) := by
    intro hss
    unfold nonDecreasing buildTable
    rw [deriveCums_map_dividendos]
    refine pairwise_absCol_of_sameSign _
      (sameSign_transfer parsed "Dividendo" dividendoInc ?_ hss)
    intro p v hv
    unfold dividendoInc at hv
    by_cases ht : p.tipo = "Dividendo"
    · rw [if_pos ht] at hv
      exact ⟨ht, hv⟩
    · rw [if_neg ht] at hv
      exact absurd hv (by simp)
  have hcos : sameSignTasas (buildTable parsed) →
      nonDecreasing ((buildTable parsed).map (·.costesAcumulados)) := by
    intro hss
    unfold nonDecreasing buildTable
    rw [deriveCums_map_costes]
    exact pairwise_absCol_of_sameSign _ (sameSignTasas_transfer parsed hss)
  have hz1 : zeroBeforeFirst (buildTable parsed)
      (fun r => r.tipo = "Ingreso") (·.ingresado) := by
    refine zeroBefore_generic parsed ingresoInc _ _ ?_ ?_
    · unfold buildTable
      exact deriveCums_map_ingresado 0 0 0 0 0 0 _
    · intro j hjR hjT hne
      have ht : ((sortByFecha parsed).get ⟨j, hjR⟩).tipo = "Ingreso" := by
        by_contra hcon
        apply hne
        unfold ingresoInc
        rw [if_neg hcon]
      show ((buildTable parsed).get ⟨j, hjT⟩).tipo = "Ingreso"
      rw [(buildTable_get_fields parsed j hjT hjR).1]
      exact ht
  have hz2 : zeroBeforeFirst (buildTable parsed)
      (fun r => r.tipo = "Retirada") (·.retirado) := by
    refine zeroBefore_generic parsed retiradaInc _ _ ?_ ?_
    · unfold buildTable
      exact deriveCums_map_retirado 0 0 0 0 0 0 _
    · intro j hjR hjT hne
      have ht : ((sortByFecha parsed).get ⟨j, hjR⟩).tipo = "Retirada" := by
        by_contra hcon
        apply hne
        unfold retiradaInc
        rw [if_neg hcon]
      show ((buildTable parsed).get ⟨j, hjT⟩).tipo = "Retirada"
      rw [(buildTable_get_fields parsed j hjT hjR).1]
      exact ht
  have hz3 : zeroBeforeFirst (buildTable parsed)
      (fun r => r.tipo = "Compra") (·.comprado) := by
    refine zeroBefore_generic parsed compraInc _ _ ?_ ?_
    · unfold buildTable
      exact deriveCums_map_comprado 0 0 0 0 0 0 _
    · intro j hjR hjT hne
      have ht : ((sortByFecha parsed).get ⟨j, hjR⟩).tipo = "Compra" := by
        by_contra hcon
        apply hne
        unfold compraInc
        rw [if_neg hcon]
      show ((buildTable parsed).get ⟨j, hjT⟩).tipo = "Compra"
      rw [(buildTable_get_fields parsed j hjT hjR).1]
      exact ht
  have hz4 : zeroBeforeFirst (buildTable parsed)
      (fun r => r.tipo = "Venta") (·.vendido) := by
    refine zeroBefore_generic parsed ventaInc _ _ ?_ ?_
    · unfold buildTable
      exact deriveCums_map_vendido 0 0 0 0 0 0 _
    · intro j hjR hjT hne
      have ht : ((sortByFecha parsed).get ⟨j, hjR⟩).tipo = "Venta" := by
        by_contra hcon
        apply hne
        unfold ventaInc
        rw [if_neg hcon]
      show ((buildTable parsed).get ⟨j, hjT⟩).tipo = "Venta"
      rw [(buildTable_get_fields parsed j hjT hjR).1]
      exact ht
  have hz5 : zeroBeforeFirst (buildTable parsed)
      (fun r => r.tipo = "Dividendo") (·.dividendosAcumulados) := by
    refine zeroBefore_generic parsed dividendoInc _ _ ?_ ?_
    · unfold buildTable
      exact deriveCums_map_dividendos 0 0 0 0 0 0 _
    · intro j hjR hjT hne
      have ht : ((sortByFecha parsed).get ⟨j, hjR⟩).tipo = "Dividendo" := by
        by_contra hcon
        apply hne
        unfold dividendoInc
        rw [if_neg hcon]
      show ((buildTable parsed).get ⟨j, hjT⟩).tipo = "Dividendo"
      rw [(buildTable_get_fields parsed j hjT hjR).1]
      exact ht
  have hz6 : zeroBeforeFirst (buildTable parsed)
      (fun r => r.tasa ≠ none) (·.costesAcumulados) := by
    refine zeroBefore_generic parsed tasaInc _ _ ?_ ?_
    · unfold buildTable
      exact deriveCums_map_costes 0 0 0 0 0 0 _
    · intro j hjR hjT hne
      show ((buildTable parsed).get ⟨j, hjT⟩).tasa ≠ none
      rw [(buildTable_get_fields parsed j hjT hjR).2.1]
      exact hne
  exact ⟨⟨hcomp, hvend⟩, hing, hret, hdiv, hcos, hz1, hz2, hz3, hz4, hz5, hz6⟩

/-- Two deposits whose `Valor` amounts have opposite signs. -/
def mixedSignDeposits : List ParsedRow :=
  [{ fecha := ⟨2022, 1, 1⟩, tipo := "Ingreso", valor := some 5 },
   { fecha := ⟨2022, 1, 2⟩, tipo := "Ingreso", valor := some (-3) }]

/-- C3 counterexample: with deposits of +5 then −3 (dates strictly
increasing), `Ingresado` is `abs` of the signed running sum — [5, 2] — and
decreases, refuting unconditional monotonicity. -/
theorem cumulative_monotonicity_counterexample :
    ((buildTable mixedSignDeposits).map
      (fun r => dateOrdinal r.fecha.date)).Pairwise (· < ·)
    ∧ (buildTable mixedSignDeposits).map (·.ingresado) = [5, 2]
    ∧ ¬ nonDecreasing ((buildTable mixedSignDeposits).map (·.ingresado)) :=
  ⟨by decide, by decide, by unfold nonDecreasing; decide⟩

/-- Two deposits with amounts of the same sign. -/
def positiveDeposits : List ParsedRow :=
  [{ fecha := ⟨2022, 1, 1⟩, tipo := "Ingreso", valor := some 5 },
   { fecha := ⟨2022, 1, 2⟩, tipo := "Ingreso", valor := some 7 }]

/-- C3 witness: the same-sign hypothesis holds on a concrete table and the
amended theorem's `Ingresado` monotonicity clause applies to it. -/
theorem cumulative_columns_witness :
    sameSignValores (buildTable positiveDeposits) "Ingreso"
    ∧ nonDecreasing ((buildTable positiveDeposits).map (·.ingresado)) :=
  ⟨by unfold sameSignValores; decide,
   (cumulative_columns_amended positiveDeposits).2.1
     (by unfold sameSignValores; decide)⟩
